import Mathlib

/-!
Shallow embedding of the blackhawkdown FATX recovery tool
(src/fatx.rs, src/scanners.rs, src/main.rs) and proofs about it.

Conventions of the embedding:
* a disk image is a total byte function `Nat → Nat` together with an
  explicit length; every access goes through `byteAt` which truncates to
  8 bits, modelling `u8` slices;
* bounds-checked cursor reads (which produce `io::Error` in the source)
  are modelled with `Option`; 64-byte directory-record slices, which the
  callers always pass fully in range, are read without a bounds check;
* the FAT walker's `loop` is modelled with an explicit fuel parameter;
  `WalkResult.outOfFuel` means the loop has not finished within the given
  number of iterations;
* machine integers are `Nat` with explicit `% 2 ^ w` where the source
  truncates; Rust `usize`/`u64` arithmetic in the modelled paths never
  overflows, and `-` on `Nat` truncates at zero exactly where the source
  guards against the operand being zero.
-/

namespace Blackhawkdown

/-- Disk image: a total byte function together with the image length. -/
structure Image where
  data : Nat → Nat
  size : Nat

/-- Read one byte, truncated to 8 bits (models indexing a `&[u8]`). -/
def byteAt (f : Nat → Nat) (i : Nat) : Nat := f i % 256

/-- View of a byte function starting at `base` (models `&data[base..]`). -/
def recAt (f : Nat → Nat) (base : Nat) : Nat → Nat := fun i => f (base + i)

/-- Big-endian u32 read from a record slice (no bounds check; callers pass
64-byte slices that are always long enough). -/
def readBE32 (f : Nat → Nat) (off : Nat) : Nat :=
  byteAt f off * 0x1000000 + byteAt f (off + 1) * 0x10000 +
    byteAt f (off + 2) * 0x100 + byteAt f (off + 3)

/-- Little-endian u32 read (used by the Bink carver in main.rs). -/
def leU32 (f : Nat → Nat) (off : Nat) : Nat :=
  byteAt f off + byteAt f (off + 1) * 0x100 +
    byteAt f (off + 2) * 0x10000 + byteAt f (off + 3) * 0x1000000

/-- Bounds-checked big-endian read of `w` bytes from the image, modelling a
`Cursor` seek + read that fails with an I/O error past the end of the data. -/
def readBEBytes? (img : Image) (off w : Nat) : Option Nat :=
  if off + w ≤ img.size then
    some ((List.range w).foldl (fun acc i => acc * 0x100 + byteAt img.data (off + i)) 0)
  else none

/-- fatx.rs `enum EntrySize`. -/
inductive EntrySize
  | fat16
  | fat32
deriving DecidableEq

/-- Width in bytes of one FAT entry. -/
def entryWidth : EntrySize → Nat
  | .fat16 => 2
  | .fat32 => 4

/-- fatx.rs `struct Partition`. -/
structure Partition where
  offset : Nat
  len : Nat
  name : String
  data : Image
  sectors_per_cluster : Nat
  root_dir_cluster : Nat
  entry_size : EntrySize
  data_offset : Nat

/-- fatx.rs `Partition::cluster_size` (`sectors_per_cluster * SECTOR_SIZE`). -/
def Partition.cluster_size (p : Partition) : Nat :=
  p.sectors_per_cluster * 0x200

/-- fatx.rs `Partition::block_offset`
(`data_offset + (block - 1) * cluster_size`; the source never calls this
with `block = 0`, having checked for zero first, so `Nat` subtraction
agrees with the source arithmetic on every modelled call). -/
def Partition.block_offset (p : Partition) (block : Nat) : Nat :=
  p.data_offset + (block - 1) * p.cluster_size

/-- Terminator test of `Partition::block_chain_from_root`: the two
`match next` arms at the top of the loop. -/
def isTerminator (p : Partition) (n : Nat) : Bool :=
  match p.entry_size with
  | .fat16 => n == 0xFFFF || n == 0xFFF8 || n == 0x0
  | .fat32 => n == 0xFFFFFFFF || n == 0xFFFFFFF8 || n == 0x0

/-- One FAT entry read of `Partition::block_chain_from_root`: a big-endian
entry of the partition's entry width at byte offset
`offset + 0x1000 + index * entry_width`. -/
def fatLookup (p : Partition) (index : Nat) : Option Nat :=
  readBEBytes? p.data (p.offset + 0x1000 + index * entryWidth p.entry_size)
    (entryWidth p.entry_size)

/-- Result of running the FAT-walking loop for a bounded number of
iterations. -/
inductive WalkResult
  | ok (chain : List Nat)
  | ioError
  | outOfFuel
deriving DecidableEq

/-- fatx.rs `Partition::block_chain_from_root`, with the unbounded `loop`
given an explicit iteration bound (`fuel`). -/
def Partition.block_chain_from_root (p : Partition) : Nat → Nat → WalkResult
  | 0, _ => .outOfFuel
  | fuel + 1, next =>
    if isTerminator p next then .ok []
    else
      match fatLookup p next with
      | none => .ioError
      | some nxt =>
        match p.block_chain_from_root fuel nxt with
        | .ok ch => .ok (next :: ch)
        | r => r

/-- fatx.rs `struct Entry`. The name is kept as its list of bytes
(`String::from_utf8_lossy` is the identity on the validated ASCII range, so
the byte list carries exactly the information of the source's `String`). -/
structure Entry where
  offset : Nat
  is_deleted : Bool
  name : List Nat
  size : Nat
  block : Nat
  attr : Nat
  block_chain : List Nat
deriving DecidableEq

/-- bitflags `EntryAttributes::from_bits`: all declared flag bits together
are `0xF7`, so the only unassigned bit below 0x100 is `0x08`. -/
def attrFromBits (a : Nat) : Option Nat :=
  if a % 256 &&& 0x08 = 0 then some (a % 256) else none

/-- Character validation arm of `Entry::parse`
(`0x20 | 0x24 | 0x2E | 0x30..=0x39 | 0x41..=0x5a | 0x5f | 0x61..=0x7a`). -/
def allowedChar (b : Nat) : Bool :=
  b == 0x20 || b == 0x24 || b == 0x2E ||
  (decide (0x30 ≤ b) && decide (b ≤ 0x39)) ||
  (decide (0x41 ≤ b) && decide (b ≤ 0x5A)) ||
  b == 0x5F ||
  (decide (0x61 ≤ b) && decide (b ≤ 0x7A))

/-- Deleted-name recovery loop of `Entry::parse`: `name_len` is set to `i`
on every iteration and the loop breaks at the first `0xFF`/`0x00` name
byte, so the result is the index of the first such byte, or `0x29` when
none occurs among the `0x2A` name bytes. -/
def recoverNameLen (rec : Nat → Nat) : Nat :=
  match (List.range 0x2A).find?
      (fun i => byteAt rec (2 + i) == 0x00 || byteAt rec (2 + i) == 0xFF) with
  | some i => i
  | none => 0x29

/-- Synthesized chain for a deleted entry in `Entry::parse`:
`num_blocks = size / cluster_size (+1 if remainder)` followed by the
inclusive range collect `(block..=block + num_blocks)`. -/
def deletedChain (block fileSize csize : Nat) : List Nat :=
  let numBlocks := fileSize / csize + (if 0 < fileSize % csize then 1 else 0)
  (List.range (numBlocks + 1)).map (block + ·)

/-- Result of `Entry::parse`: `Ok(Some(e))`, `Ok(None)`, `Err(..)` from a
FAT read past the end of the image, or an unfinished FAT walk. -/
inductive ParseResult
  | entry (e : Entry)
  | noEntry
  | ioError
  | outOfFuel
deriving DecidableEq

/-- fatx.rs `Entry::parse`. `rec` is the 64-byte record slice as a byte
function and `offset` the record's image offset; `fuel` bounds the FAT walk
of the live-entry branch. -/
def Entry.parse (part : Partition) (fuel : Nat) (rec : Nat → Nat)
    (offset : Nat) : ParseResult :=
  if byteAt rec 0 = 0xFF ∨ byteAt rec 0 = 0x0 ∨
      (¬ byteAt rec 0 = 0xE5 ∧ 0x2A < byteAt rec 0) then
    .noEntry
  else
    let nameLen := if byteAt rec 0 = 0xE5 then recoverNameLen rec else byteAt rec 0
    if nameLen = 0 then
      .noEntry
    else if (List.range nameLen).all (fun i => allowedChar (byteAt rec (2 + i))) then
      let name := (List.range nameLen).map fun i => byteAt rec (2 + i)
      if name.length = 0 then
        .noEntry
      else
        let block := readBE32 rec 0x2C
        let fileSize := readBE32 rec 0x30
        if 0x1024 * 0x1024 * 0x1024 * 4 < fileSize then
          .noEntry
        else
          match (if ¬ byteAt rec 0 = 0xE5 then part.block_chain_from_root fuel block
                 else .ok (deletedChain block fileSize part.cluster_size)) with
          | .ioError => .ioError
          | .outOfFuel => .outOfFuel
          | .ok chain0 =>
            let chain1 := chain0.map fun b =>
              if b = 0 then b
              else if part.data.size < part.block_offset b then 0 else b
            let chain2 := chain1.filter fun b => b != 0
            .entry {
              offset := offset
              is_deleted := decide (nameLen = 0xE5)
              name := name
              size := fileSize
              block := block
              attr := (attrFromBits (byteAt rec 1)).getD 0
              block_chain := chain2 }
    else
      .noEntry

/-- Early-return condition of the first guard loop in `Entry::write_to_file`
(`for block in chain { if *block == 0 { return Ok(()) } ... }`): the guard
fires iff some chain element is zero. -/
def zeroClusterGuard (e : Entry) : Bool :=
  e.block_chain.any fun b => b == 0

/-- Result of scanning one directory cluster. -/
inductive BlockResult
  | ok (es : List Entry)
  | ioError
  | outOfFuel
deriving DecidableEq

/-- Record loop of `Directory::read_block`: read 64-byte records in order
from `pos`, parse each, push parsed entries, and stop the scan of the
cluster at the first record for which `Entry::parse` returns `Ok(None)`.
`n` is the number of loop iterations left
(the source's `while cursor.position() < block_offset + block_size`). -/
def readRecords (part : Partition) (fuel : Nat) (img : Image) :
    Nat → Nat → BlockResult
  | 0, _ => .ok []
  | n + 1, pos =>
    match Entry.parse part fuel (recAt img.data pos) pos with
    | .entry e =>
      match readRecords part fuel img n (pos + 0x40) with
      | .ok es => .ok (e :: es)
      | r => r
    | .noEntry => .ok []
    | .ioError => .ioError
    | .outOfFuel => .outOfFuel

/-- fatx.rs `Directory::read_block`: scan the records of one cluster. The
iteration count is the number of 64-byte reads the cursor loop performs
over `cluster_size` bytes. -/
def readBlock (part : Partition) (fuel block : Nat) : BlockResult :=
  readRecords part fuel part.data ((part.cluster_size + 0x3F) / 0x40)
    (part.block_offset block)

/-- scanners.rs `enum DeletedFileType`. -/
inductive DeletedFileType
  | XEX (off : Nat)
  | STFS (off : Nat)
  | FatxEntry (e : Entry)
  | Bink (off : Nat)
deriving DecidableEq

/-- The scanner's closed signature set (`XEX2`, `CON `, `LIVE`, `PIRS`,
`BIKi` as big-endian u32 values, in source order). -/
def magics : List Nat :=
  [0x58455832, 0x434F4E20, 0x4C495645, 0x50495253, 0x42494B69]

/-- Probe A of `find_deleted_files`: a deleted FATX entry at `p`. Fires when
`data[p] == 0xE5` and the attribute byte decodes to exactly `NONE` or
exactly `DIRECTORY`, and `Entry::parse` accepts the 64-byte record. -/
def probeA (part : Partition) (fuel : Nat) (img : Image) (p : Nat) :
    List DeletedFileType :=
  if byteAt img.data p = 0xE5 then
    if attrFromBits (byteAt img.data (p + 1)) = some 0x00 ∨
        attrFromBits (byteAt img.data (p + 1)) = some 0x10 then
      match Entry.parse part fuel (recAt img.data p) p with
      | .entry e => [.FatxEntry e]
      | _ => []
    else []
  else []

/-- Probe B of `find_deleted_files`: a container magic at `p`. The source
iterates over `magics` and at most one can match, so the loop is modelled
with `find?`; the `data[p + 5]` text filter `break`s out, and the
known-live-offset check guards the push. -/
def probeB (img : Image) (known : List Entry) (p : Nat) :
    List DeletedFileType :=
  match magics.find? (fun m => readBE32 img.data p == m) with
  | none => []
  | some _ =>
    if byteAt img.data (p + 5) = 0x20 ∨ byteAt img.data (p + 5) = 0x2E then []
    else if known.any (fun e => e.offset == p) then []
    else if readBE32 img.data p = 0x58455832 then [.XEX p]
    else if readBE32 img.data p = 0x42494B69 then [.Bink p]
    else [.STFS p]

/-- Both probes of one 16-byte stride position, in source order. -/
def scanStep (part : Partition) (fuel : Nat) (img : Image)
    (known : List Entry) (p : Nat) : List DeletedFileType :=
  probeA part fuel img p ++ probeB img known p

/-- One shard of `find_deleted_files`: the worker loop
`while current_offset < stop` with a 16-byte stride starting at `start`
(the source aligns the shard start down to 16 bytes before entering the
loop; `start` here is that aligned value). -/
def scanShard (part : Partition) (fuel : Nat) (img : Image)
    (known : List Entry) (start stop : Nat) : List DeletedFileType :=
  (List.range ((stop - start + 0xF) / 0x10)).foldr
    (fun k acc => scanStep part fuel img known (start + 0x10 * k) ++ acc) []

/-- errors.rs `DiskError` (the variants exercised by partition
construction; `ioErr` stands for a propagated `io::Error`). -/
inductive DiskError
  | invalidDiskLength (expected actual : Nat)
  | invalidFilesystemMagic (magic offset : Nat)
  | ioErr
deriving DecidableEq

/-- Number of bits of a `u32` value (index of the highest set bit plus
one), written as a bounded fold so it evaluates structurally. -/
def bitLen32 (v : Nat) : Nat :=
  (List.range 32).foldl (fun acc i => if 2 ^ i ≤ v then i + 1 else acc) 0

/-- `u32::leading_zeros` for values below `2 ^ 32`. -/
def leadingZeros32 (v : Nat) : Nat := 32 - bitLen32 v

/-- fatx.rs `Partition::new`. The source's only length validation is
`data.len() < offset`; the magic and superblock reads go through the
bounds-checked cursor. `0x1F - leading_zeros` is `Nat` subtraction; the
source would overflow-panic exactly where this truncates at zero
(`sectors_per_cluster << 9 == 0`), a case no modelled run reaches. -/
def Partition.new (img : Image) (offset len : Nat) (name : String) :
    Except DiskError Partition :=
  if img.size < offset then
    .error (.invalidDiskLength offset img.size)
  else
    match readBEBytes? img offset 4 with
    | none => .error .ioErr
    | some magic =>
      if ¬ magic = 0x58544146 then
        .error (.invalidFilesystemMagic magic (offset + 4))
      else
        match readBEBytes? img (offset + 0x8) 4, readBEBytes? img (offset + 0xC) 4 with
        | some spc, some rootCluster =>
          let shiftFactor := 0x1F - leadingZeros32 ((spc * 0x200) % 0x100000000)
          let ats0 := (len >>> shiftFactor) + 1
          let entryShift := if ats0 < 0xFFF0 then 1 else 2
          let ats1 := ats0 <<< entryShift
          let ats2 := ats1 + 0x1000 - 1
          let ats3 := ats2 - ats2 % 0x1000
          let ats4 := ats3 % 0x100000000
          .ok {
            offset := offset
            len := len
            name := name
            data := img
            sectors_per_cluster := spc
            root_dir_cluster := rootCluster
            entry_size := if entryShift = 1 then .fat16 else .fat32
            data_offset := offset + 0x1000 + ats4 }
        | _, _ => .error .ioErr

/-- Byte extent carved for a `Bink` discovery by main.rs: the source reads
`file_size` as a little-endian u32 at `offset` and writes
`mmap[offset .. offset + file_size + 0x8]`; the pair is the half-open
byte range of that slice. -/
def binkCarveExtent (img : Image) (offset : Nat) : Nat × Nat :=
  (offset, offset + leU32 img.data offset + 0x8)

/-! Concrete fixtures used by the witnesses and counterexamples. -/

/-- Image with a FAT16 table at 0x1000 mapping cluster 1 to cluster 2 and
cluster 2 to the terminator 0xFFFF. -/
def imgP : Image :=
  ⟨fun i => if i = 0x1003 then 2 else if i = 0x1004 then 0xFF
            else if i = 0x1005 then 0xFF else 0, 0x100000⟩

/-- FAT16 partition over `imgP`, cluster size 0x200, data region at
0x2000. -/
def partP : Partition :=
  ⟨0, 0x100000, "Data", imgP, 1, 1, .fat16, 0x2000⟩

/-- Deleted directory record: name byte 0xE5, attributes 0, name "A"
(terminated by 0xFF), first cluster 2, size 0x200. -/
def recDel : Nat → Nat := fun i =>
  if i = 0 then 0xE5 else if i = 2 then 0x41 else if i = 3 then 0xFF
  else if i = 0x2F then 2 else if i = 0x32 then 2 else 0

/-- Deleted directory record: name "B", first cluster 3, size 0x100. -/
def recDelB : Nat → Nat := fun i =>
  if i = 0 then 0xE5 else if i = 2 then 0x42 else if i = 3 then 0xFF
  else if i = 0x2F then 3 else if i = 0x32 then 1 else 0

/-- Deleted directory record whose 0x2A name bytes are all `A` (no 0x00 or
0xFF terminator anywhere in the name field), first cluster 0, size 0. -/
def recC10 : Nat → Nat := fun i =>
  if i = 0 then 0xE5 else if i = 1 then 0
  else if 2 ≤ i ∧ i ≤ 0x2B then 0x41 else 0

/-- Entry produced by parsing `recC10`. -/
def eC10 : Entry :=
  ⟨0, false, List.replicate 0x29 0x41, 0, 0, 0, []⟩

/-- Image whose first directory cluster (at 0x2000) starts with a record
with name-length byte 0x2B (invalid, not 0xE5, not a terminator byte)
followed at 0x2040 by a well-formed deleted record. -/
def img3 : Image :=
  ⟨fun i => if i = 0x2000 then 0x2B else if i = 0x2040 then 0xE5
            else if i = 0x2042 then 0x42 else if i = 0x2043 then 0xFF else 0,
    0x100000⟩

/-- FAT16 partition over `img3`. -/
def part3 : Partition :=
  ⟨0, 0x100000, "Data", img3, 1, 1, .fat16, 0x2000⟩

/-- Image whose bytes at offset 0 form the same deleted record as
`recDel`. -/
def imgC4 : Image :=
  ⟨fun i => if i = 0 then 0xE5 else if i = 2 then 0x41 else if i = 3 then 0xFF
            else if i = 0x2F then 2 else if i = 0x32 then 2 else 0, 0x10000⟩

/-- Known-live entry list containing an entry at image offset 0. -/
def knownC4 : List Entry :=
  [⟨0, false, [0x41], 0x200, 2, 0, [2, 3]⟩]

/-- Image with the `XEX2` magic at offset 0 and byte 0 at offset 5. -/
def imgX : Image :=
  ⟨fun i => if i = 0 then 0x58 else if i = 1 then 0x45
            else if i = 2 then 0x58 else if i = 3 then 0x32 else 0, 0x1000⟩

/-- Known-live entry list whose only entry sits at image offset 0x40. -/
def knownX : List Entry :=
  [⟨0x40, false, [0x41], 0, 0, 0, []⟩]

/-- 16-byte image holding a valid XTAF superblock at offset 0 with
`sectors_per_cluster = 1` and `root_cluster = 1`. -/
def imgC6 : Image :=
  ⟨fun i => if i = 0 then 0x58 else if i = 1 then 0x54
            else if i = 2 then 0x41 else if i = 3 then 0x46
            else if i = 0xB then 1 else if i = 0xF then 1 else 0, 0x10⟩

/-- Image with `BIKi` at offset 0x40000 and the little-endian u32 0x100 at
offset 0x40004. -/
def imgC5 : Image :=
  ⟨fun i => if i = 0x40000 then 0x42 else if i = 0x40001 then 0x49
            else if i = 0x40002 then 0x4B else if i = 0x40003 then 0x69
            else if i = 0x40005 then 0x01 else 0, 0x50000⟩

/-- Image whose FAT16 table maps cluster 1 to itself: a FAT cycle. -/
def imgCyc : Image :=
  ⟨fun i => if i = 0x1003 then 1 else 0, 0x2000⟩

/-- FAT16 partition over `imgCyc`, partition length 0x800, cluster size
0x200 (a cluster capacity of 4). -/
def partCyc : Partition :=
  ⟨0, 0x800, "Data", imgCyc, 1, 1, .fat16, 0x2000⟩

/-- Specification-side characterization of the chain the walker is claimed
to produce: the empty chain when the root is a terminator, and otherwise
the root followed by the chain of its big-endian FAT successor, so that the
chain is exactly `[root, fat[root], fat[fat[root]], …]` stopped before the
first terminator. -/
inductive ChainFollowsFat (p : Partition) : Nat → List Nat → Prop
  | terminal {root : Nat} :
      isTerminator p root = true → ChainFollowsFat p root []
  | step {root nxt : Nat} {rest : List Nat} :
      isTerminator p root = false → fatLookup p root = some nxt →
      ChainFollowsFat p nxt rest → ChainFollowsFat p root (root :: rest)

/-! Theorems. -/

/-- Arithmetic bridge for the deleted-chain block count: the quantity the
source computes as `size / cluster_size`, plus one when there is a
remainder, is the ceiling `(s + C - 1) / C`. -/
theorem numBlocks_eq_ceil (s C : Nat) (hC : 0 < C) :
    s / C + (if 0 < s % C then 1 else 0) = (s + C - 1) / C := by
  have hdm := Nat.div_add_mod s C
  have hmlt := Nat.mod_lt s hC
  rcases Nat.eq_zero_or_pos (s % C) with h | h
  · rw [if_neg (by omega)]
    have h1 : s + C - 1 = C * (s / C) + (C - 1) := by omega
    rw [h1, Nat.mul_add_div hC, Nat.div_eq_of_lt (show C - 1 < C by omega)]
  · rw [if_pos h]
    have hmul : C * (s / C + 1) = C * (s / C) + C := by ring
    have h1 : s + C - 1 = C * (s / C + 1) + (s % C - 1) := by omega
    rw [h1, Nat.mul_add_div hC,
      Nat.div_eq_of_lt (show s % C - 1 < C by omega)]

/-- C1 (counterexample): a deleted record with declared size `s` equal to
the cluster size `C = 0x200` is accepted by `Entry.parse`, and the chain
the deleted branch synthesizes before the out-of-image drop is
`[2, 3]` — two cluster indices, not the single index
`ceil(0x200 / 0x200) = 1` the claim requires. -/
theorem c1_counterexample :
    Entry.parse partP 1 recDel 0 =
      .entry ⟨0, false, [0x41], 0x200, 2, 0, [2, 3]⟩ ∧
    partP.cluster_size = 0x200 ∧
    deletedChain 2 0x200 partP.cluster_size = [2, 3] ∧
    ([2, 3] : List Nat).length ≠ 1 := by decide

/-- C1 (amended): the chain synthesized for a deleted entry is the
inclusive contiguous range `[block, block + ceil(s / C)]`, i.e. it has
`(s + C - 1) / C + 1` cluster indices — one more than the claim states. -/
theorem c1_amended (b s C : Nat) (hC : 0 < C) :
    deletedChain b s C = (List.range ((s + C - 1) / C + 1)).map (b + ·) := by
  simp only [deletedChain]
  rw [numBlocks_eq_ceil s C hC]

/-- C1 (witness): the amended statement at `b = 2`, `s = C = 0x200`. -/
theorem c1_amended_witness :
    deletedChain 2 0x200 0x200 =
      (List.range ((0x200 + 0x200 - 1) / 0x200 + 1)).map (2 + ·) :=
  c1_amended 2 0x200 0x200 (by decide)

/-- C2 (code bug): a record whose on-disk name-length byte is 0xE5 parses
to an `Entry` whose `is_deleted` field is `false`: the source builds the
field from the `name_len` variable after the recovery loop overwrote it
with the recovered length, so the field never equals 0xE5's test. -/
theorem c2_bug :
    byteAt recDelB 0 = 0xE5 ∧
    Entry.parse partP 1 recDelB 0x40 =
      .entry ⟨0x40, false, [0x42], 0x100, 3, 0, [3, 4]⟩ := by decide

/-- C5 (code bug): with `BIKi` at image offset 0x40000 and the
little-endian u32 0x100 stored at 0x40004, the scanner does emit a Bink
discovery, but the materializer reads its length at the discovery offset
itself — getting 0x694B4942, the `BIKi` bytes read as a little-endian
u32 — and carves `0x694B494A` bytes instead of the 0x108 bytes the claim
specifies. -/
theorem c5_bug :
    probeB imgC5 [] 0x40000 = [.Bink 0x40000] ∧
    leU32 imgC5.data 0x40004 = 0x100 ∧
    binkCarveExtent imgC5 0x40000 = (0x40000, 0x40000 + 0x694B494A) ∧
    (0x40000 + 0x694B494A) - 0x40000 ≠ 0x108 := by decide

/-- C6 (counterexample): a partition descriptor whose declared byte range
`start_offset + length = 0x100000` extends far past the 0x10-byte image is
accepted by `Partition.new` — the construction succeeds and no
`InvalidDiskLength` error is raised. -/
theorem c6_counterexample :
    (match Partition.new imgC6 0 0x100000 "Data" with
     | .ok _ => true
     | .error _ => false) = true ∧
    imgC6.size < 0 + 0x100000 := by decide

/-- C6 (amended): `Partition.new` fails with `InvalidDiskLength` exactly
when the image is shorter than `start_offset` alone; the declared length
plays no part in the check. -/
theorem c6_amended (img : Image) (off len : Nat) (name : String) :
    (∃ e a, Partition.new img off len name =
      .error (.invalidDiskLength e a)) ↔ img.size < off := by
  constructor
  · rintro ⟨e, a, h⟩
    unfold Partition.new at h
    split at h
    · assumption
    · split at h
      · exact absurd h (by simp)
      · split at h
        · exact absurd h (by simp)
        · split at h
          · exact absurd h (by simp)
          · exact absurd h (by simp)
  · intro h
    exact ⟨off, img.size, by unfold Partition.new; rw [if_pos h]⟩

/-- C6 (witness): the amended statement on a concrete 0x10-byte image with
`start_offset = 0x20`. -/
theorem c6_amended_witness :
    ∃ e a, Partition.new imgC6 0x20 0 "Data" =
      .error (.invalidDiskLength e a) :=
  (c6_amended imgC6 0x20 0 "Data").mpr (by decide)

/-- C8 (counterexample): on a FAT whose entry for cluster 1 points back to
cluster 1, the walker is still running after 0x20 iterations even though
the partition's cluster capacity is only 4: no chain is ever returned, so
the chain is neither capped at the capacity nor truncated. -/
theorem c8_counterexample :
    Partition.block_chain_from_root partCyc 0x20 1 = .outOfFuel ∧
    partCyc.len / partCyc.cluster_size < 0x20 := by decide

/-- C8 (amended): the walker has no chain-length cap: from any cluster
whose FAT entry maps it to itself and which is not a terminator, the
walking loop never finishes, whatever iteration bound it is given. -/
theorem c8_amended (p : Partition) (c : Nat)
    (h1 : isTerminator p c = false) (h2 : fatLookup p c = some c) :
    ∀ fuel, p.block_chain_from_root fuel c = .outOfFuel := by
  intro fuel
  induction fuel with
  | zero => rfl
  | succ n ih => simp [Partition.block_chain_from_root, h1, h2, ih]

/-- C8 (witness): the amended statement on the concrete cyclic FAT. -/
theorem c8_amended_witness :
    Partition.block_chain_from_root partCyc 7 1 = .outOfFuel :=
  c8_amended partCyc 1 (by decide) (by decide) 7

/-- C7 (confirmed): whenever the walker finishes with a chain, that chain
follows the FAT from the root and stops before the first terminator (with
FAT entries read big-endian at `offset + 0x1000 + index * entry_width`, as
embedded in `fatLookup`); and a root that is itself a terminator yields the
empty chain. -/
theorem c7_walker_chain (p : Partition) :
    (∀ fuel root ch, p.block_chain_from_root fuel root = .ok ch →
      ChainFollowsFat p root ch) ∧
    (∀ root fuel, isTerminator p root = true → 0 < fuel →
      p.block_chain_from_root fuel root = .ok []) := by
  constructor
  · intro fuel
    induction fuel with
    | zero =>
      intro root ch h
      simp [Partition.block_chain_from_root] at h
    | succ n ih =>
      intro root ch h
      simp only [Partition.block_chain_from_root] at h
      cases hb : isTerminator p root with
      | true =>
        rw [hb] at h
        simp at h
        subst h
        exact .terminal hb
      | false =>
        simp only [hb, Bool.false_eq_true, if_false] at h
        cases hf : fatLookup p root with
        | none => simp [hf] at h
        | some nxt =>
          simp only [hf] at h
          cases hr : p.block_chain_from_root n nxt with
          | ok ch' =>
            simp only [hr] at h
            have hch : root :: ch' = ch := by simpa using h
            subst hch
            exact .step hb hf (ih nxt ch' hr)
          | ioError => simp [hr] at h
          | outOfFuel => simp [hr] at h
  · intro root fuel ht hf
    cases fuel with
    | zero => exact absurd hf (by omega)
    | succ n => simp [Partition.block_chain_from_root, ht]

/-- C7 (witness): on the concrete FAT mapping 1 ↦ 2 ↦ 0xFFFF the returned
chain `[1, 2]` satisfies the characterization, and the terminator root 0
yields the empty chain. -/
theorem c7_walker_chain_witness :
    ChainFollowsFat partP 1 [1, 2] ∧
    Partition.block_chain_from_root partP 5 0 = .ok [] :=
  ⟨(c7_walker_chain partP).1 10 1 [1, 2] (by decide),
   (c7_walker_chain partP).2 0 5 (by decide) (by omega)⟩

/-- Every element surviving the `retain(|b| *b != 0)` pass is nonzero. -/
theorem filter_ne_zero (l : List Nat) :
    ((l.filter fun b => b != 0).all fun b => b != 0) = true ∧
    ((l.filter fun b => b != 0).any fun b => b == 0) = false := by
  induction l with
  | nil => simp
  | cons a t ih =>
    rcases ih with ⟨ih1, ih2⟩
    by_cases h : a = 0
    · simp [List.filter_cons, h, ih1, ih2]
    · simp [List.filter_cons, h, ih1, ih2]

/-- C9 (confirmed): every entry produced by `Entry.parse` has a cluster
chain free of zeros — the parse ends with `retain(|b| *b != 0)` — so the
zero-cluster early-return guard of `Entry::write_to_file` can never fire on
such an entry. -/
theorem c9_chain_nonzero (part : Partition) (fuel : Nat) (rec : Nat → Nat)
    (off : Nat) (e : Entry)
    (h : Entry.parse part fuel rec off = .entry e) :
    (e.block_chain.all fun b => b != 0) = true ∧ zeroClusterGuard e = false := by
  simp only [Entry.parse] at h
  repeat' split at h
  all_goals first
    | (rw [ParseResult.entry.injEq] at h; subst h;
       exact ⟨(filter_ne_zero _).1, (filter_ne_zero _).2⟩)
    | simp at h

/-- C9 (witness): the parsed entry of the concrete deleted record `recDel`
has an all-nonzero chain and does not trip the zero-cluster guard. -/
theorem c9_chain_nonzero_witness :
    ((⟨0, false, [0x41], 0x200, 2, 0, [2, 3]⟩ : Entry).block_chain.all
      fun b => b != 0) = true ∧
    zeroClusterGuard ⟨0, false, [0x41], 0x200, 2, 0, [2, 3]⟩ = false :=
  c9_chain_nonzero partP 1 recDel 0 _ (by decide)

/-- The recovered name length of a deleted record is never more than 0x29:
the recovery loop's counter never reaches the field width 0x2A. -/
theorem recoverNameLen_le (rec : Nat → Nat) : recoverNameLen rec ≤ 0x29 := by
  unfold recoverNameLen
  cases hf : (List.range 0x2A).find?
      (fun i => byteAt rec (2 + i) == 0x00 || byteAt rec (2 + i) == 0xFF) with
  | none => exact Nat.le_refl 0x29
  | some j =>
    have hj := List.mem_range.mp (List.mem_of_find?_eq_some hf)
    show j ≤ 0x29
    omega

/-- When no name byte is 0x00 or 0xFF, the recovery loop runs to its last
index and reports 0x29. -/
theorem recoverNameLen_eq_of_no_term (rec : Nat → Nat)
    (h : ∀ i, i < 0x2A →
      ¬ byteAt rec (2 + i) = 0x00 ∧ ¬ byteAt rec (2 + i) = 0xFF) :
    recoverNameLen rec = 0x29 := by
  unfold recoverNameLen
  have hnone : (List.range 0x2A).find?
      (fun i => byteAt rec (2 + i) == 0x00 || byteAt rec (2 + i) == 0xFF) =
        none := by
    rw [List.find?_eq_none]
    intro x hx
    have hb := h x (List.mem_range.mp hx)
    simp only [Bool.or_eq_true, beq_iff_eq]
    exact fun hc => hc.elim hb.1 hb.2
  rw [hnone]

/-- C10 (confirmed): a deleted record accepted by `Entry.parse` never
carries a name of the maximum length 0x2A, and when its 0x2A name bytes
contain no 0x00 or 0xFF at all the recovered length is exactly 0x29 — the
final name byte is dropped. -/
theorem c10_deleted_name_len (part : Partition) (fuel : Nat)
    (rec : Nat → Nat) (off : Nat) (e : Entry)
    (h0 : byteAt rec 0 = 0xE5)
    (h : Entry.parse part fuel rec off = .entry e) :
    e.name.length ≤ 0x29 ∧
    ((∀ i, i < 0x2A →
        ¬ byteAt rec (2 + i) = 0x00 ∧ ¬ byteAt rec (2 + i) = 0xFF) →
      e.name.length = 0x29) := by
  simp only [Entry.parse, h0] at h
  norm_num at h
  repeat' split at h
  all_goals first
    | (rw [ParseResult.entry.injEq] at h; subst h;
       refine ⟨by simpa using recoverNameLen_le rec, fun hno => ?_⟩;
       simpa using recoverNameLen_eq_of_no_term rec hno)
    | simp at h

/-- C10 (witness): parsing the concrete deleted record whose whole name
field is `A` bytes yields a name of length exactly 0x29. -/
theorem c10_deleted_name_len_witness : eC10.name.length = 0x29 :=
  (c10_deleted_name_len partP 1 recC10 0 eC10 (by decide) (by decide)).2
    (by decide)

/-- C3 (counterexample): the first record of the cluster has name-length
byte 0x2B — by the claim a record to skip — and the second record of the
same cluster parses to a valid entry, yet `read_block` returns the empty
list: the scan stopped at the first record instead of skipping it. -/
theorem c3_counterexample :
    byteAt (recAt img3.data 0x2000) 0 = 0x2B ∧
    Entry.parse part3 1 (recAt img3.data 0x2000) 0x2000 = .noEntry ∧
    Entry.parse part3 1 (recAt img3.data 0x2040) 0x2040 =
      .entry ⟨0x2040, false, [0x42], 0, 0, 0, []⟩ ∧
    readBlock part3 1 1 = .ok [] := by decide

/-- Record scan of a cluster stops at the first `Ok(None)` record: if the
first `j` records parse to entries and record `j` parses to `Ok(None)`,
the scan returns exactly the first `j` entries and looks no further. -/
theorem readRecords_stop (part : Partition) (fuel : Nat) (img : Image) :
    ∀ (j : Nat) (es : Nat → Entry) (n pos : Nat), j < n →
      (∀ i, i < j →
        Entry.parse part fuel (recAt img.data (pos + 0x40 * i))
          (pos + 0x40 * i) = .entry (es i)) →
      Entry.parse part fuel (recAt img.data (pos + 0x40 * j))
        (pos + 0x40 * j) = .noEntry →
      readRecords part fuel img n pos = .ok ((List.range j).map es) := by
  intro j
  induction j with
  | zero =>
    intro es n pos hj hacc hstop
    cases n with
    | zero => omega
    | succ m =>
      simp only [Nat.mul_zero, Nat.add_zero] at hstop
      simp [readRecords, hstop]
  | succ j ih =>
    intro es n pos hj hacc hstop
    cases n with
    | zero => omega
    | succ m =>
      have h0 : Entry.parse part fuel (recAt img.data pos) pos =
          .entry (es 0) := by
        simpa using hacc 0 (by omega)
      have hrec : readRecords part fuel img m (pos + 0x40) =
          .ok ((List.range j).map fun i => es (i + 1)) := by
        apply ih (fun i => es (i + 1)) m (pos + 0x40) (by omega)
        · intro i hi
          have hi' := hacc (i + 1) (by omega)
          rw [show pos + 0x40 * (i + 1) = pos + 0x40 + 0x40 * i by ring] at hi'
          exact hi'
        · have hs' := hstop
          rw [show pos + 0x40 * (j + 1) = pos + 0x40 + 0x40 * j by ring] at hs'
          exact hs'
      simp only [readRecords, h0, hrec]
      rw [List.range_succ_eq_map]
      simp [List.map_map, Function.comp]

/-- C3 (amended): within a directory cluster, any record on which
`Entry.parse` yields `Ok(None)` — terminator or invalid alike — stops the
cluster's record scan; the entries returned are exactly those parsed
before the first such record, and nothing after it is scanned. -/
theorem c3_amended (p : Partition) (fuel block j : Nat) (es : Nat → Entry)
    (hj : j < (p.cluster_size + 0x3F) / 0x40)
    (hacc : ∀ i, i < j →
      Entry.parse p fuel (recAt p.data.data (p.block_offset block + 0x40 * i))
        (p.block_offset block + 0x40 * i) = .entry (es i))
    (hstop : Entry.parse p fuel
        (recAt p.data.data (p.block_offset block + 0x40 * j))
        (p.block_offset block + 0x40 * j) = .noEntry) :
    readBlock p fuel block = .ok ((List.range j).map es) :=
  readRecords_stop p fuel p.data j es _ _ hj hacc hstop

/-- C3 (witness): the amended statement on the concrete cluster whose
first record yields `Ok(None)`. -/
theorem c3_amended_witness : readBlock part3 1 1 = .ok [] := by
  have h := c3_amended part3 1 1 0 (fun _ => ⟨0, false, [], 0, 0, 0, []⟩)
    (by decide) (fun i hi => absurd hi (by omega)) (by decide)
  simpa using h

/-- C4 (counterexample): a deleted-entry discovery (Probe A) is emitted at
image offset 0 even though 0 is the offset of a known live entry: the
known-live exclusion is not applied to Probe A. -/
theorem c4_counterexample :
    scanShard partP 1 imgC4 knownC4 0 0x10 =
      [.FatxEntry ⟨0, false, [0x41], 0x200, 2, 0, [2, 3]⟩] ∧
    (⟨0, false, [0x41], 0x200, 2, 0, [2, 3]⟩ : Entry).offset = 0 ∧
    knownC4.any (fun e => e.offset == 0) = true := by decide

/-- Every discovery of a shard scan arises from the probes of one stride
position. -/
theorem mem_scanShard {d : DeletedFileType} (part : Partition) (fuel : Nat)
    (img : Image) (known : List Entry) (start stop : Nat)
    (h : d ∈ scanShard part fuel img known start stop) :
    ∃ p, d ∈ scanStep part fuel img known p := by
  unfold scanShard at h
  generalize List.range ((stop - start + 0xF) / 0x10) = l at h
  induction l with
  | nil => simp at h
  | cons a t ih =>
    rw [List.foldr_cons] at h
    rcases List.mem_append.mp h with h' | h'
    · exact ⟨start + 0x10 * a, h'⟩
    · exact ih h'

/-- C4 (amended): the known-live-offset exclusion holds for the
container-magic discoveries only: every `XEX`, `STFS` or `Bink` discovery
of a shard scan has an offset that is not among the known live Entry
offsets (deleted-FATX-entry discoveries carry no such guarantee). -/
theorem c4_amended (part : Partition) (fuel : Nat) (img : Image)
    (known : List Entry) (start stop : Nat) (d : DeletedFileType)
    (hd : d ∈ scanShard part fuel img known start stop) :
    ∀ off, (d = .XEX off ∨ d = .STFS off ∨ d = .Bink off) →
      known.any (fun e => e.offset == off) = false := by
  intro off hoff
  obtain ⟨p, hp⟩ := mem_scanShard part fuel img known start stop hd
  unfold scanStep at hp
  rcases List.mem_append.mp hp with hp | hp
  · unfold probeA at hp
    repeat' split at hp
    all_goals simp_all
  · unfold probeB at hp
    repeat' split at hp
    all_goals simp_all

/-- C4 (witness): the amended statement for the `XEX` discovery of a
concrete shard scan, against a nonempty known-live list. -/
theorem c4_amended_witness : knownX.any (fun e => e.offset == 0) = false :=
  c4_amended partP 1 imgX knownX 0 0x10 (.XEX 0) (by decide) 0 (Or.inl rfl)

end Blackhawkdown
